import Mathlib

/-!
Shallow embedding of `src/emails.py` (class `MedicalEmailAgent`), the
requirement-extraction core of the medical-staffing email agent.

Python text is modelled as `String`/`List Char`. The external collaborators
(the dateutil date parser, the spaCy recognizer, the IMAP connection) are
passed in as function parameters; theorems quantify over them, and concrete
instances model their documented behaviour on the specific inputs used.
Machine-level details that the claims do not touch (full Unicode case
folding, non-ASCII digits) are modelled for the ASCII + French-accented
alphabet actually exercised by the program.
-/

namespace Emails

/-- Python `\s` (whitespace class) restricted to the ASCII space characters. -/
def pyIsSpace (c : Char) : Bool :=
  c == ' ' || c == '\t' || c == '\n' || c == '\r' || c == '\x0b' || c == '\x0c'

/-- The accented letters of French, lower- and upper-case, which Python's
`re` module counts as word characters and `str.lower`/`str.upper` case-fold. -/
def frenchLower : List (Char × Char) :=
  [('à', 'À'), ('â', 'Â'), ('ä', 'Ä'), ('ç', 'Ç'), ('è', 'È'), ('é', 'É'),
   ('ê', 'Ê'), ('ë', 'Ë'), ('î', 'Î'), ('ï', 'Ï'), ('ô', 'Ô'), ('ö', 'Ö'),
   ('ù', 'Ù'), ('û', 'Û'), ('ü', 'Ü'), ('ÿ', 'Ÿ'), ('œ', 'Œ'), ('æ', 'Æ')]

/-- Python `\w` (word character) over the modelled alphabet. -/
def pyIsWordChar (c : Char) : Bool :=
  c.isAlphanum || c == '_' ||
    frenchLower.any (fun p => p.1 == c || p.2 == c)

/-- Python `str.lower` on one character, over the modelled alphabet. -/
def pyLowerChar (c : Char) : Char :=
  if c.isUpper then c.toLower
  else match frenchLower.find? (fun p => p.2 == c) with
       | some p => p.1
       | none => c

/-- Python `str.upper` on one character, over the modelled alphabet. -/
def pyUpperChar (c : Char) : Char :=
  if c.isLower then c.toUpper
  else match frenchLower.find? (fun p => p.1 == c) with
       | some p => p.2
       | none => c

/-- Python `str.lower`. -/
def pyLower (s : String) : String := String.mk (s.data.map pyLowerChar)

/-- Python `str.upper`. -/
def pyUpper (s : String) : String := String.mk (s.data.map pyUpperChar)

/-- Python `needle in hay` (substring test). -/
def pyContains (hay needle : String) : Bool :=
  decide (List.IsInfix needle.data hay.data)

/-- Numeric value of a decimal digit character. -/
def digitVal (c : Char) : Nat := c.toNat - '0'.toNat

/-! ### `datetime.strptime(s, "%H:%M")`

CPython's `_strptime` compiles `%H` to the regex `(2[0-3]|[0-1]\d|\d)` and
`%M` to `([0-5]\d|\d)`, joined by the literal `:`; a successful match that
does not consume the whole string raises ("unconverted data remains"),
modelled as `none`. The result carries only the time fields (the date
defaults to 1900-01-01 for both operands and cancels in the subtraction). -/

structure PyTime where
  hour : Nat
  minute : Nat
deriving Repr, DecidableEq

/-- Minute part of `strptime "%H:%M"`: `([0-5]\d|\d)` followed by end of
input (any leftover raises, hence `none`). -/
def strptimeMinute (h : Nat) : List Char → Option PyTime
  | [a, b] =>
      if a.isDigit && digitVal a ≤ 5 && b.isDigit then
        some ⟨h, 10 * digitVal a + digitVal b⟩
      else none
  | [a] => if a.isDigit then some ⟨h, digitVal a⟩ else none
  | _ => none

/-- Literal `:` followed by the minute part. -/
def strptimeColonMinute (h : Nat) : List Char → Option PyTime
  | ':' :: r => strptimeMinute h r
  | _ => none

/-- Full model of `datetime.strptime(s, "%H:%M")`, `none` on `ValueError`. -/
def strptimeHM : List Char → Option PyTime
  | a :: b :: r =>
      (if a == '2' && b.isDigit && digitVal b ≤ 3 then
        strptimeColonMinute (20 + digitVal b) r else none) <|>
      (if (a == '0' || a == '1') && b.isDigit then
        strptimeColonMinute (10 * digitVal a + digitVal b) r else none) <|>
      (if a.isDigit then strptimeColonMinute (digitVal a) (b :: r) else none)
  | _ => none

/-! ### The time-range regex

`re.search(r"(\d{1,2}h\d{0,2})\s*(?:-|à|au)\s*(\d{1,2}h\d{0,2})", text,
re.IGNORECASE)`: a backtracking matcher in continuation-passing style,
alternatives in the order the regex engine tries them (greedy repetition,
ordered alternation), scanning start positions left to right. -/

/-- Match `\d{1,2}` then `[hH]` at the head, passing the matched characters
and the rest to the continuation; greedy on the digit count. -/
def matchHourH (cs : List Char) (k : List Char → List Char → Option α) : Option α :=
  match cs with
  | a :: b :: c :: r =>
      (if a.isDigit && b.isDigit && (c == 'h' || c == 'H') then k [a, b, c] r else none) <|>
      (if a.isDigit && (b == 'h' || b == 'H') then k [a, b] (c :: r) else none)
  | [a, b] =>
      if a.isDigit && (b == 'h' || b == 'H') then k [a, b] [] else none
  | _ => none

/-- Match `\d{0,2}` greedily at the head, appending the matched digits to
`acc`; backtracks to fewer digits if the continuation fails. -/
def matchMinutes (acc : List Char) (cs : List Char)
    (k : List Char → List Char → Option α) : Option α :=
  match cs with
  | a :: b :: r =>
      (if a.isDigit && b.isDigit then k (acc ++ [a, b]) r else none) <|>
      (if a.isDigit then k (acc ++ [a]) (b :: r) else none) <|>
      k acc (a :: b :: r)
  | [a] =>
      (if a.isDigit then k (acc ++ [a]) [] else none) <|> k acc [a]
  | [] => k acc []

/-- Match one `\d{1,2}h\d{0,2}` group at the head. -/
def matchTime (cs : List Char) (k : List Char → List Char → Option α) : Option α :=
  matchHourH cs (fun g r => matchMinutes g r k)

/-- Match the connector `(?:-|à|au)` case-insensitively at the head. -/
def matchConnector (cs : List Char) (k : List Char → Option α) : Option α :=
  match cs with
  | c :: r =>
      (if c == '-' then k r else none) <|>
      (if c == 'à' || c == 'À' then k r else none) <|>
      (match r with
       | u :: r2 => if (c == 'a' || c == 'A') && (u == 'u' || u == 'U') then k r2 else none
       | [] => none)
  | [] => none

/-- Python `\s*` (greedy; the tokens that follow it in this pattern are
never whitespace, so no backtracking into it is possible). -/
def dropSpaces (cs : List Char) : List Char := cs.dropWhile pyIsSpace

/-- Attempt the whole pattern at the current position, returning the two
captured groups. -/
def matchRangeAt (cs : List Char) : Option (List Char × List Char) :=
  matchTime cs (fun g1 r1 =>
    matchConnector (dropSpaces r1) (fun r2 =>
      matchTime (dropSpaces r2) (fun g2 _ => some (g1, g2))))

/-- `re.search`: the leftmost position where the pattern matches. -/
def searchRange : List Char → Option (List Char × List Char)
  | [] => none
  | c :: t => matchRangeAt (c :: t) <|> searchRange t

/-- Python `s.replace("h", ":")` (the lower-case letter only). -/
def pyReplaceH (s : List Char) : List Char :=
  s.map (fun c => if c == 'h' then ':' else c)

/-- Embedding of `MedicalEmailAgent._calculate_shift_duration`: first match
of the time-range regex, both groups through `strptime` after `h` → `:`
replacement, end before start pushed to the next day, seconds floored to
whole hours, rendered `f"{...}h"`; empty string when the regex finds
nothing or `strptime` raises. -/
def _calculate_shift_duration (text : String) : String :=
  match searchRange text.data with
  | none => ""
  | some (g1, g2) =>
    match strptimeHM (pyReplaceH g1), strptimeHM (pyReplaceH g2) with
    | some start, some stop =>
        let s := start.hour * 60 + start.minute
        let e := stop.hour * 60 + stop.minute
        let d := if e < s then e + 1440 - s else e - s
        let seconds := d * 60
        toString (seconds / 3600) ++ "h"
    | _, _ => ""

/-! ### Dates -/

/-- A parsed calendar date, the part of a dateutil `datetime` result that
`_parse_date` consumes. -/
structure PyDate where
  year : Nat
  month : Nat
  day : Nat
deriving Repr, DecidableEq

/-- Zero-padding to two digits, as `strftime` `%d`/`%m` do. -/
def pad2 (n : Nat) : String := if n < 10 then "0" ++ toString n else toString n

/-- Zero-padding to four digits, as `strftime` `%Y` does. -/
def pad4 (n : Nat) : String :=
  if n < 10 then "000" ++ toString n
  else if n < 100 then "00" ++ toString n
  else if n < 1000 then "0" ++ toString n
  else toString n

/-- Python `date.strftime("%d/%m/%Y")`. -/
def pyStrftimeDMY (d : PyDate) : String :=
  pad2 d.day ++ "/" ++ pad2 d.month ++ "/" ++ pad4 d.year

/-- Embedding of `MedicalEmailAgent._parse_date`. The external call
`dateutil.parser.parse(text, dayfirst=True, fuzzy=True)` is abstracted as
the parameter `dateParse` (`none` models a raised exception, swallowed by
the bare `except`). On success with a year strictly between 2020 and 2030
the formatted date is appended — unconditionally — to the `dates` list;
every other outcome leaves the list unchanged. -/
def _parse_date (dateParse : String → Option PyDate) (text : String)
    (dates : List String) : List String :=
  match dateParse text with
  | none => dates
  | some d =>
      if 2020 < d.year ∧ d.year < 2030 then dates ++ [pyStrftimeDMY d]
      else dates

/-- Number of days in a month, Gregorian rules. -/
def daysInMonth (year month : Nat) : Nat :=
  if month = 2 then
    if year % 4 = 0 ∧ (year % 100 ≠ 0 ∨ year % 400 = 0) then 29 else 28
  else if month = 4 ∨ month = 6 ∨ month = 9 ∨ month = 11 then 30
  else 31

/-- Concrete model of the external `dateutil.parser.parse(s, dayfirst=True,
fuzzy=True)` collaborator restricted to strict `DD/MM/YYYY` digit strings:
with `dayfirst` such a string parses day-first, and dateutil raises on an
impossible day or month (e.g. `"99/99/9999"`). The fuzzy natural-language
behaviour of dateutil on other inputs is not modelled; theorems concrete in
this function only feed it such strings. -/
def ddmmyyyyParse (s : String) : Option PyDate :=
  match s.data with
  | [d1, d2, '/', m1, m2, '/', y1, y2, y3, y4] =>
      if d1.isDigit && d2.isDigit && m1.isDigit && m2.isDigit &&
         y1.isDigit && y2.isDigit && y3.isDigit && y4.isDigit then
        let day := 10 * digitVal d1 + digitVal d2
        let month := 10 * digitVal m1 + digitVal m2
        let year := 1000 * digitVal y1 + 100 * digitVal y2 + 10 * digitVal y3 + digitVal y4
        if 1 ≤ month ∧ month ≤ 12 ∧ 1 ≤ day ∧ day ≤ daysInMonth year month then
          some ⟨year, month, day⟩
        else none
      else none
  | _ => none

/-! ### The requirement record and `extract_requirements` -/

/-- The blacklist initialized in `MedicalEmailAgent.__init__`. -/
def location_blacklist : List String :=
  ["bonjour", "merci", "service", "rh", "cordialement"]

/-- The fallback keyword set of `extract_requirements`. -/
def urgency_keywords : List String :=
  ["urgent", "urgence", "immédiat", "asap", "rapidement"]

/-- The `requirements` dictionary built by `extract_requirements`. Python
lists become Lean lists; the boolean and string fields are as in the
source. -/
structure Requirements where
  profession : List String
  shifts : List String
  locations : List String
  dates : List String
  shift_duration : String
  urgence : Bool
deriving Repr, DecidableEq

/-- The initial `requirements` value of `extract_requirements`. -/
def emptyRequirements : Requirements :=
  { profession := [], shifts := [], locations := [], dates := [],
    shift_duration := "", urgence := false }

/-- One iteration of the `for ent in doc.ents` loop: an entity is a
`(label, text)` pair and is routed by its label exactly as the
`if`/`elif` chain does (a blacklisted place span falls through the chain
with no effect). -/
def entStep (dateParse : String → Option PyDate) (req : Requirements)
    (ent : String × String) : Requirements :=
  if (ent.1 = "GPE" ∨ ent.1 = "LOC") ∧ pyLower ent.2 ∉ location_blacklist then
    { req with locations := req.locations ++ [ent.2] }
  else if ent.1 = "DATE" then
    { req with dates := _parse_date dateParse ent.2 req.dates }
  else if ent.1 = "MEDICAL_PROFESSION" then
    { req with profession := req.profession ++ [pyUpper ent.2] }
  else if ent.1 = "SHIFT_TIME" then
    { req with shifts := req.shifts ++ [pyLower ent.2] }
  else if ent.1 = "URGENCY" then
    { req with urgence := true }
  else req

/-- The whole `for ent in doc.ents` loop. -/
def processEnts (dateParse : String → Option PyDate) :
    List (String × String) → Requirements → Requirements
  | [], req => req
  | e :: rest, req => processEnts dateParse rest (entStep dateParse req e)

/-- Does `\b(\d{2}/\d{2}/\d{4})\b` match at the head of the list (trailing
word boundary included; the leading boundary is the caller's business)? -/
def dateShapeAt : List Char → Bool
  | d1 :: d2 :: '/' :: m1 :: m2 :: '/' :: y1 :: y2 :: y3 :: y4 :: rest =>
      d1.isDigit && d2.isDigit && m1.isDigit && m2.isDigit &&
      y1.isDigit && y2.isDigit && y3.isDigit && y4.isDigit &&
      (match rest with | [] => true | c :: _ => !pyIsWordChar c)
  | _ => false

/-- Word-boundary test against the character preceding the current
position (`none` at the start of the text). -/
def boundaryOk : Option Char → Bool
  | none => true
  | some p => !pyIsWordChar p

/-- Left-to-right scan for `\b(\d{2}/\d{2}/\d{4})\b`, non-overlapping,
each match 10 characters long. The `fuel` argument only makes the
recursion structural: every step consumes at least one character, so any
`fuel ≥ cs.length` computes the full scan. -/
def pyFindallDatesAux : Nat → Option Char → List Char → List String
  | 0, _, _ => []
  | _ + 1, _, [] => []
  | fuel + 1, prev, c :: t =>
      if boundaryOk prev && dateShapeAt (c :: t) then
        String.mk ((c :: t).take 10) ::
          pyFindallDatesAux fuel ((c :: t).get? 9) ((c :: t).drop 10)
      else
        pyFindallDatesAux fuel (some c) t

/-- Embedding of `re.findall(r"\b(\d{2}/\d{2}/\d{4})\b", text)`; `prev` is
the character before the scan position (`none` at the start). -/
def pyFindallDates (prev : Option Char) (cs : List Char) : List String :=
  pyFindallDatesAux cs.length prev cs

/-- The `for date in date_matches` loop: append each regex match not
already present. -/
def regexDatesFold : List String → List String → List String
  | dates, [] => dates
  | dates, d :: ms =>
      regexDatesFold (if d ∈ dates then dates else dates ++ [d]) ms

/-- Python `list(set(xs))`: the distinct elements in an order the language
does not specify; the model fixes the order chosen by `List.dedup`. -/
def pySet (xs : List String) : List String := xs.dedup

/-- Embedding of `MedicalEmailAgent.extract_requirements`. The spaCy
pipeline output `doc.ents` is abstracted as the input list `ents` of
`(label, text)` pairs; `dateParse` abstracts the dateutil collaborator
used by `_parse_date`. The phases run in source order: entity routing,
regex date fallback, urgency keyword fallback, shift duration, and final
deduplication of `profession`/`shifts`/`locations` (the `dates` list is
not deduplicated at the end). -/
def extract_requirements (dateParse : String → Option PyDate) (text : String)
    (ents : List (String × String)) : Requirements :=
  let req1 := processEnts dateParse ents emptyRequirements
  let dates2 := regexDatesFold req1.dates (pyFindallDates none text.data)
  let urg := req1.urgence || urgency_keywords.any (fun w => pyContains (pyLower text) w)
  { profession := pySet req1.profession,
    shifts := pySet req1.shifts,
    locations := pySet req1.locations,
    dates := dates2,
    shift_duration := _calculate_shift_duration text,
    urgence := urg }

/-! ### `process_emails` and its collaborators -/

/-- The classification expression of `process_emails` (line 184):
`requirements["profession"][0] if requirements["profession"] else
"non_classe"`. -/
def classify (req : Requirements) : String :=
  match req.profession with
  | [] => "non_classe"
  | p :: _ => p

/-- The dictionary produced by `parse_email` (subject, body, sender,
date), with the MIME decoding collaborator out of scope. -/
structure ParsedEmail where
  subject : String
  body : String
  sender : String
  date : String
deriving Repr, DecidableEq

/-- One element of the `results` list built by `process_emails`. -/
structure ProcessedResult where
  id : Nat
  classification : String
  requirements : Requirements
  sender : String
  date : String
  processed : Bool
deriving Repr, DecidableEq

/-- Embedding of `MedicalEmailAgent.mark_as_processed`: the folder
bookkeeping and the `move` call are collaborator I/O abstracted as the
fallible `move`; the surrounding `try`/`except` swallows every outcome, so
the function always returns unit. -/
def mark_as_processed (move : Nat → Except String Unit) (email_id : Nat) : Unit :=
  match move email_id with
  | Except.ok _ => ()
  | Except.error _ => ()

/-- The `for email_id in emails` loop of `process_emails`. `fetch`
abstracts `conn.fetch` followed by `parse_email` (an exception from either
propagates out of the loop, hence `Except`); `recognize` abstracts the
spaCy pipeline producing entity spans from the text
`f"{subject}\n{body}"`. -/
def processLoop (dateParse : String → Option PyDate)
    (recognize : String → List (String × String))
    (fetch : Nat → Except String ParsedEmail)
    (move : Nat → Except String Unit) :
    List Nat → List ProcessedResult → Except String (List ProcessedResult)
  | [], acc => Except.ok acc
  | email_id :: rest, acc =>
    match fetch email_id with
    | Except.error e => Except.error e
    | Except.ok parsed =>
        let text := parsed.subject ++ "\n" ++ parsed.body
        let reqs := extract_requirements dateParse text (recognize text)
        let result : ProcessedResult :=
          { id := email_id, classification := classify reqs,
            requirements := reqs, sender := parsed.sender,
            date := parsed.date, processed := true }
        let _ := mark_as_processed move email_id
        processLoop dateParse recognize fetch move rest (acc ++ [result])

/-- Embedding of `MedicalEmailAgent.process_emails`: the loop runs under
one `try`; any exception escaping it (in particular a `fetch` failure)
makes the whole call return the empty list, discarding results already
accumulated. -/
def process_emails (dateParse : String → Option PyDate)
    (recognize : String → List (String × String))
    (fetch : Nat → Except String ParsedEmail)
    (move : Nat → Except String Unit) (emails : List Nat) : List ProcessedResult :=
  match processLoop dateParse recognize fetch move emails [] with
  | Except.ok results => results
  | Except.error _ => []

/-! ### Helper lemmas -/

/-- Entries already present survive the regex-date fold. -/
theorem regexDatesFold_mem_left (ms : List String) :
    ∀ (dates : List String) (x : String), x ∈ dates → x ∈ regexDatesFold dates ms := by
  induction ms with
  | nil => intro dates x hx; simpa [regexDatesFold] using hx
  | cons d ms ih =>
      intro dates x hx
      simp only [regexDatesFold]
      split
      · exact ih _ _ hx
      · exact ih _ _ (List.mem_append_left _ hx)

/-- Every regex match ends up in the folded list. -/
theorem regexDatesFold_mem_right (ms : List String) :
    ∀ (dates : List String) (x : String), x ∈ ms → x ∈ regexDatesFold dates ms := by
  induction ms with
  | nil => intro dates x hx; simp at hx
  | cons d ms ih =>
      intro dates x hx
      simp only [regexDatesFold]
      rcases List.mem_cons.mp hx with rfl | hx'
      · apply regexDatesFold_mem_left
        split
        · assumption
        · simp
      · exact ih _ _ hx'

/-- The regex-date fold appends a duplicate-free block of entries that were
not already present. -/
theorem regexDatesFold_decomp (ms : List String) :
    ∀ dates : List String, ∃ extra : List String,
      regexDatesFold dates ms = dates ++ extra ∧ extra.Nodup ∧
      ∀ y ∈ extra, y ∉ dates := by
  induction ms with
  | nil => intro dates; exact ⟨[], by simp [regexDatesFold], List.nodup_nil, by simp⟩
  | cons d ms ih =>
      intro dates
      simp only [regexDatesFold]
      by_cases hd : d ∈ dates
      · rw [if_pos hd]; exact ih dates
      · rw [if_neg hd]
        obtain ⟨extra, heq, hnd, hdisj⟩ := ih (dates ++ [d])
        refine ⟨d :: extra, ?_, ?_, ?_⟩
        · rw [heq, List.append_assoc]; rfl
        · refine List.nodup_cons.mpr ⟨fun hmem => ?_, hnd⟩
          exact hdisj d hmem (List.mem_append_right _ (List.mem_singleton.mpr rfl))
        · intro y hy
          rcases List.mem_cons.mp hy with rfl | hy'
          · exact hd
          · intro hyd
            exact hdisj y hy' (List.mem_append_left _ hyd)

/-- The entity router sets `urgence` exactly on `URGENCY` labels. -/
theorem entStep_urgence (dateParse : String → Option PyDate)
    (req : Requirements) (e : String × String) :
    (entStep dateParse req e).urgence = true ↔
      req.urgence = true ∨ e.1 = "URGENCY" := by
  simp only [entStep]
  split_ifs with h1 h2 h3 h4 h5
  · have hne : e.1 ≠ "URGENCY" := by rcases h1.1 with h | h <;> (rw [h]; decide)
    simp [hne]
  · have hne : e.1 ≠ "URGENCY" := by rw [h2]; decide
    simp [hne]
  · have hne : e.1 ≠ "URGENCY" := by rw [h3]; decide
    simp [hne]
  · have hne : e.1 ≠ "URGENCY" := by rw [h4]; decide
    simp [hne]
  · simp [h5]
  · simp [h5]

/-- The `doc.ents` loop sets `urgence` exactly when an `URGENCY` span is
present (or it was set before). -/
theorem processEnts_urgence (dateParse : String → Option PyDate)
    (ents : List (String × String)) :
    ∀ req : Requirements,
      (processEnts dateParse ents req).urgence = true ↔
        req.urgence = true ∨ ∃ e ∈ ents, e.1 = "URGENCY" := by
  induction ents with
  | nil => intro req; simp [processEnts]
  | cons e rest ih =>
      intro req
      rw [processEnts, ih, entStep_urgence]
      simp only [List.mem_cons]
      constructor
      · rintro ((h | h) | ⟨e', he', hu⟩)
        · exact Or.inl h
        · exact Or.inr ⟨e, Or.inl rfl, h⟩
        · exact Or.inr ⟨e', Or.inr he', hu⟩
      · rintro (h | ⟨e', (rfl | he'), hu⟩)
        · exact Or.inl (Or.inl h)
        · exact Or.inl (Or.inr hu)
        · exact Or.inr ⟨e', he', hu⟩

/-- The entity router's effect on `locations`. -/
theorem entStep_locations (dateParse : String → Option PyDate)
    (req : Requirements) (e : String × String) :
    (entStep dateParse req e).locations =
      if (e.1 = "GPE" ∨ e.1 = "LOC") ∧ pyLower e.2 ∉ location_blacklist then
        req.locations ++ [e.2]
      else req.locations := by
  simp only [entStep]
  split_ifs with h1 h2 h3 h4 h5 <;> rfl

/-- Membership in the `locations` list accumulated by the `doc.ents` loop:
exactly the place-labelled spans whose lower-cased text avoids the
blacklist. -/
theorem processEnts_locations_mem (dateParse : String → Option PyDate)
    (ents : List (String × String)) :
    ∀ (req : Requirements) (x : String),
      x ∈ (processEnts dateParse ents req).locations ↔
        x ∈ req.locations ∨ ∃ e ∈ ents,
          (e.1 = "GPE" ∨ e.1 = "LOC") ∧ pyLower e.2 ∉ location_blacklist ∧ e.2 = x := by
  induction ents with
  | nil => intro req x; simp [processEnts]
  | cons e rest ih =>
      intro req x
      rw [processEnts, ih, entStep_locations]
      by_cases hc : (e.1 = "GPE" ∨ e.1 = "LOC") ∧ pyLower e.2 ∉ location_blacklist
      · rw [if_pos hc]
        simp only [List.mem_append, List.mem_cons, List.not_mem_nil, or_false]
        constructor
        · rintro ((h | rfl) | ⟨e', he', hp⟩)
          · exact Or.inl h
          · exact Or.inr ⟨e, Or.inl rfl, hc.1, hc.2, rfl⟩
          · exact Or.inr ⟨e', Or.inr he', hp⟩
        · rintro (h | ⟨e', (rfl | he'), hp⟩)
          · exact Or.inl (Or.inl h)
          · exact Or.inl (Or.inr hp.2.2.symm)
          · exact Or.inr ⟨e', he', hp⟩
      · rw [if_neg hc]
        simp only [List.mem_cons]
        constructor
        · rintro (h | ⟨e', he', hp⟩)
          · exact Or.inl h
          · exact Or.inr ⟨e', Or.inr he', hp⟩
        · rintro (h | ⟨e', (rfl | he'), hp⟩)
          · exact Or.inl h
          · exact absurd ⟨hp.1, hp.2.1⟩ hc
          · exact Or.inr ⟨e', he', hp⟩

/-- The loop's result does not depend on the mark-processed collaborator. -/
theorem processLoop_move_irrel (dateParse : String → Option PyDate)
    (recognize : String → List (String × String))
    (fetch : Nat → Except String ParsedEmail)
    (move move' : Nat → Except String Unit) (emails : List Nat) :
    ∀ acc, processLoop dateParse recognize fetch move emails acc =
      processLoop dateParse recognize fetch move' emails acc := by
  induction emails with
  | nil => intro acc; rfl
  | cons i rest ih =>
      intro acc
      simp only [processLoop]
      cases fetch i with
      | error e => rfl
      | ok parsed => exact ih _

/-- A fetch failure after a prefix of successful fetches makes the loop
return an error. -/
theorem processLoop_fetch_error (dateParse : String → Option PyDate)
    (recognize : String → List (String × String))
    (fetch : Nat → Except String ParsedEmail)
    (move : Nat → Except String Unit)
    (i : Nat) (post : List Nat) (msg : String)
    (hi : fetch i = Except.error msg) :
    ∀ (pre : List Nat) (acc : List ProcessedResult),
      (∀ j ∈ pre, ∃ p, fetch j = Except.ok p) →
      processLoop dateParse recognize fetch move (pre ++ i :: post) acc =
        Except.error msg := by
  intro pre
  induction pre with
  | nil =>
      intro acc _
      simp only [List.nil_append, processLoop, hi]
  | cons j pre ih =>
      intro acc hok
      obtain ⟨p, hp⟩ := hok j (List.mem_cons_self j pre)
      simp only [List.cons_append, processLoop, hp]
      exact ih _ fun j' hj' => hok j' (List.mem_cons_of_mem _ hj')

/-! ### Claim theorems -/

/-- C1: the spec says minutes default to zero when a clock time omits them,
so that a text with `de 19h à 7h` gets shift duration `12h`. In the code
the time-range regex deliberately admits the minuteless form (`\d{0,2}`),
but `"19h".replace("h", ":")` gives `"19:"`, which `strptime` with format
`%H:%M` rejects; the exception is swallowed and the duration degrades to
the empty string. This theorem evaluates the code at the failing input:
the regex does match, the strptime step fails, and both the bare range and
the spec's end-to-end scenario text yield `""`, not `12h`. -/
theorem C1_minuteless_times_fail_not_default_zero :
    searchRange "de 19h à 7h".data = some ("19h".data, "7h".data) ∧
    strptimeHM (pyReplaceH "19h".data) = none ∧
    _calculate_shift_duration "de 19h à 7h" = "" ∧
    (extract_requirements (fun _ => none)
        "Besoin d\x27une infirmière urgent pour un quart de nuit à Montréal le 15/03/2025, de 19h à 7h"
        []).shift_duration = "" := by
  refine ⟨by decide, by decide, by decide, by decide⟩

/-- C2 counterexample: the sentinel the code returns for an empty
professions collection is the literal `"non_classe"`, not the literal
`"unclassified"` stated by the claim. -/
theorem C2_sentinel_is_non_classe :
    (extract_requirements (fun _ => none) "" []).profession = [] ∧
    classify (extract_requirements (fun _ => none) "" []) = "non_classe" ∧
    classify (extract_requirements (fun _ => none) "" []) ≠ "unclassified" := by
  refine ⟨by decide, by decide, by decide⟩

/-- C2 amended: with the sentinel read as the code's literal
`"non_classe"`, classification returns the sentinel exactly on an empty
professions collection and the first profession otherwise. -/
theorem C2_classify_first_or_sentinel (req : Requirements) :
    (req.profession = [] → classify req = "non_classe") ∧
    ∀ p ps, req.profession = p :: ps → classify req = p := by
  constructor
  · intro h; simp [classify, h]
  · intro p ps h; simp [classify, h]

/-- C2 witness: the amended classification rule at two concrete records. -/
theorem C2_classify_first_or_sentinel_witness :
    classify (extract_requirements (fun _ => none) "" []) = "non_classe" ∧
    classify (extract_requirements (fun _ => none) "" [("MEDICAL_PROFESSION", "inf")]) = "INF" :=
  ⟨(C2_classify_first_or_sentinel _).1 (by decide),
   (C2_classify_first_or_sentinel _).2 "INF" [] (by decide)⟩

/-- C3 counterexample: `_parse_date` appends with no already-present
check, so two date spans normalizing to the same calendar date produce a
duplicated `dates` sequence. -/
theorem C3_duplicate_date_spans_counterexample :
    (extract_requirements ddmmyyyyParse ""
        [("DATE", "15/03/2025"), ("DATE", "15/03/2025")]).dates =
      ["15/03/2025", "15/03/2025"] ∧
    ¬ List.Nodup (extract_requirements ddmmyyyyParse ""
        [("DATE", "15/03/2025"), ("DATE", "15/03/2025")]).dates := by
  refine ⟨by decide, by decide⟩

/-- C3 amended: only the regex fallback deduplicates — it appends a
duplicate-free block of dates not already present (so the same date fed
via a span and then the regex yields one entry), while the span path
appends unconditionally. -/
theorem C3_dates_dedup_only_on_regex_path :
    (∀ (dateParse : String → Option PyDate) (text : String)
        (ents : List (String × String)),
        ∃ extra : List String,
          (extract_requirements dateParse text ents).dates =
            (processEnts dateParse ents emptyRequirements).dates ++ extra ∧
          extra.Nodup ∧
          ∀ y ∈ extra, y ∉ (processEnts dateParse ents emptyRequirements).dates) ∧
    (extract_requirements ddmmyyyyParse "15/03/2025" [("DATE", "15/03/2025")]).dates =
      ["15/03/2025"] := by
  constructor
  · intro dp text ents
    exact regexDatesFold_decomp (pyFindallDates none text.data)
      (processEnts dp ents emptyRequirements).dates
  · decide

/-- C3 witness: the regex-path decomposition at a concrete input. -/
theorem C3_dates_dedup_only_on_regex_path_witness :
    ∃ extra : List String,
      (extract_requirements ddmmyyyyParse "01/02/2021" []).dates =
        (processEnts ddmmyyyyParse [] emptyRequirements).dates ++ extra ∧
      extra.Nodup ∧
      ∀ y ∈ extra, y ∉ (processEnts ddmmyyyyParse [] emptyRequirements).dates :=
  C3_dates_dedup_only_on_regex_path.1 ddmmyyyyParse "01/02/2021" []

/-- C4: when the first time-range match of the text has its end strictly
earlier than its start, one day (1440 minutes) is added to the end before
subtracting, the difference is truncated to whole hours, and the result is
rendered `<N>h`; concretely `22h00-6h00` gives `8h` (overnight) and
`8h00 à 16h00` gives `8h` (same day). -/
theorem C4_overnight_and_same_day_duration :
    (∀ (text : String) (g1 g2 : List Char) (s e : PyTime),
        searchRange text.data = some (g1, g2) →
        strptimeHM (pyReplaceH g1) = some s →
        strptimeHM (pyReplaceH g2) = some e →
        e.hour * 60 + e.minute < s.hour * 60 + s.minute →
        _calculate_shift_duration text =
          toString ((e.hour * 60 + e.minute + 1440 - (s.hour * 60 + s.minute)) * 60 / 3600) ++ "h") ∧
    _calculate_shift_duration "22h00-6h00" = "8h" ∧
    _calculate_shift_duration "8h00 à 16h00" = "8h" := by
  refine ⟨?_, by decide, by decide⟩
  intro text g1 g2 s e hsearch hs he hlt
  simp only [_calculate_shift_duration, hsearch, hs, he]
  rw [if_pos hlt]

/-- C4 witness: the overnight rule applied at the concrete overnight
input. -/
theorem C4_overnight_and_same_day_duration_witness :
    _calculate_shift_duration "22h00-6h00" =
      toString ((6 * 60 + 0 + 1440 - (22 * 60 + 0)) * 60 / 3600) ++ "h" :=
  C4_overnight_and_same_day_duration.1 "22h00-6h00" "22h00".data "6h00".data
    ⟨22, 0⟩ ⟨6, 0⟩ (by decide) (by decide) (by decide) (by decide)

/-- C5: a parsed date-labelled span is accepted exactly when its year is
strictly between 2020 and 2030, and on success the date is appended in
zero-padded `DD/MM/YYYY` form; concretely years 2019 and 2031 are rejected
and 2021 and 2029 accepted. -/
theorem C5_date_plausibility_window :
    (∀ (dateParse : String → Option PyDate) (text : String)
        (dates : List String) (d : PyDate),
        dateParse text = some d →
        (2020 < d.year ∧ d.year < 2030 →
          _parse_date dateParse text dates = dates ++ [pyStrftimeDMY d]) ∧
        (d.year ≤ 2020 ∨ 2030 ≤ d.year →
          _parse_date dateParse text dates = dates)) ∧
    _parse_date (fun _ => some ⟨2019, 3, 15⟩) "le 15 mars" [] = [] ∧
    _parse_date (fun _ => some ⟨2031, 3, 15⟩) "le 15 mars" [] = [] ∧
    _parse_date (fun _ => some ⟨2021, 3, 5⟩) "le 5 mars" [] = ["05/03/2021"] ∧
    _parse_date (fun _ => some ⟨2029, 12, 31⟩) "fin décembre" [] = ["31/12/2029"] := by
  refine ⟨?_, by decide, by decide, by decide, by decide⟩
  intro dp text dates d hd
  constructor
  · intro hy; simp [_parse_date, hd, hy]
  · intro hy
    have hni : ¬(2020 < d.year ∧ d.year < 2030) := by omega
    simp [_parse_date, hd, hni]

/-- C5 witness: an in-window year accepted at a concrete input. -/
theorem C5_date_plausibility_window_witness :
    _parse_date (fun _ => some ⟨2025, 3, 15⟩) "le 15/03/2025" [] =
      [] ++ [pyStrftimeDMY ⟨2025, 3, 15⟩] :=
  (C5_date_plausibility_window.1 (fun _ => some ⟨2025, 3, 15⟩) "le 15/03/2025" []
    ⟨2025, 3, 15⟩ rfl).1 (by decide)

/-- C6: the extracted record's urgent flag is true exactly when an
`URGENCY`-labelled span is present or one of the five fallback keywords is
a substring of the lower-cased raw text; either signal alone suffices. -/
theorem C6_urgency_union_iff :
    ∀ (dateParse : String → Option PyDate) (text : String)
      (ents : List (String × String)),
      (extract_requirements dateParse text ents).urgence = true ↔
        (∃ e ∈ ents, e.1 = "URGENCY") ∨
        ∃ w ∈ urgency_keywords, List.IsInfix w.data (pyLower text).data := by
  intro dp text ents
  have h1 : (extract_requirements dp text ents).urgence =
      ((processEnts dp ents emptyRequirements).urgence ||
        urgency_keywords.any (fun w => pyContains (pyLower text) w)) := rfl
  rw [h1, Bool.or_eq_true, processEnts_urgence]
  simp [emptyRequirements, pyContains, List.any_eq_true]

/-- C6 witness: the keyword signal alone sets the flag at a concrete
input. -/
theorem C6_urgency_union_iff_witness :
    (extract_requirements (fun _ => none) "Besoin ASAP" []).urgence = true :=
  (C6_urgency_union_iff (fun _ => none) "Besoin ASAP" []).mpr
    (Or.inr ⟨"asap", by decide, by decide⟩)

/-- C7: a place-labelled span whose lower-cased text is blacklisted is
never added to locations, whatever its casing; every place-labelled span
not in the blacklist is added. -/
theorem C7_blacklist_filters_locations :
    ∀ (dateParse : String → Option PyDate) (text : String)
      (ents : List (String × String)) (s : String),
      (pyLower s ∈ location_blacklist →
        s ∉ (extract_requirements dateParse text ents).locations) ∧
      (∀ l : String, (l = "GPE" ∨ l = "LOC") → (l, s) ∈ ents →
        pyLower s ∉ location_blacklist →
        s ∈ (extract_requirements dateParse text ents).locations) := by
  intro dp text ents s
  have hloc : (extract_requirements dp text ents).locations =
      pySet (processEnts dp ents emptyRequirements).locations := rfl
  constructor
  · intro hbl hmem
    rw [hloc, pySet, List.mem_dedup] at hmem
    rcases (processEnts_locations_mem dp ents emptyRequirements s).mp hmem with
      h | ⟨e, _, _, hnbl, heq⟩
    · simp [emptyRequirements] at h
    · rw [heq] at hnbl
      exact hnbl hbl
  · intro l hl hin hnbl
    rw [hloc, pySet, List.mem_dedup]
    exact (processEnts_locations_mem dp ents emptyRequirements s).mpr
      (Or.inr ⟨(l, s), hin, hl, hnbl, rfl⟩)

/-- C7 witness: `Merci` is filtered and `Montréal` admitted at concrete
inputs. -/
theorem C7_blacklist_filters_locations_witness :
    "Merci" ∉ (extract_requirements (fun _ => none) "" [("GPE", "Merci")]).locations ∧
    "Montréal" ∈ (extract_requirements (fun _ => none) "" [("LOC", "Montréal")]).locations :=
  ⟨(C7_blacklist_filters_locations (fun _ => none) "" [("GPE", "Merci")] "Merci").1
      (by decide),
   (C7_blacklist_filters_locations (fun _ => none) "" [("LOC", "Montréal")] "Montréal").2
      "LOC" (Or.inr rfl) (by decide) (by decide)⟩

/-- C8: no exception escapes the date normalizer or the duration
calculator — in the embedding both are total, a failed or out-of-window
date parse leaves the dates list unchanged, and a missing time-range
pattern or a failed time parse makes the duration the empty string. -/
theorem C8_parse_failures_degrade_to_defaults :
    (∀ text : String, searchRange text.data = none →
      _calculate_shift_duration text = "") ∧
    (∀ (text : String) (g1 g2 : List Char),
      searchRange text.data = some (g1, g2) →
      strptimeHM (pyReplaceH g1) = none ∨ strptimeHM (pyReplaceH g2) = none →
      _calculate_shift_duration text = "") ∧
    (∀ (dateParse : String → Option PyDate) (text : String) (dates : List String),
      dateParse text = none → _parse_date dateParse text dates = dates) ∧
    (∀ (dateParse : String → Option PyDate) (text : String) (dates : List String)
      (d : PyDate), dateParse text = some d → ¬(2020 < d.year ∧ d.year < 2030) →
      _parse_date dateParse text dates = dates) := by
  refine ⟨?_, ?_, ?_, ?_⟩
  · intro text h; simp [_calculate_shift_duration, h]
  · intro text g1 g2 hs hfail
    rcases hfail with h | h
    · cases hb : strptimeHM (pyReplaceH g2) <;>
        simp [_calculate_shift_duration, hs, h, hb]
    · cases ha : strptimeHM (pyReplaceH g1) <;>
        simp [_calculate_shift_duration, hs, h, ha]
  · intro dp text dates h; simp [_parse_date, h]
  · intro dp text dates d hd hy; simp [_parse_date, hd, hy]

/-- C8 witness: a text with no time-range pattern gives the empty
duration. -/
theorem C8_parse_failures_degrade_to_defaults_witness :
    _calculate_shift_duration "aucun horaire ici" = "" :=
  C8_parse_failures_degrade_to_defaults.1 "aucun horaire ici" (by decide)

/-- C9 counterexample: with message 1 fetching fine and message 2 failing,
the run returns the empty list — the result already computed for message 1
is discarded — whereas processing message 1 alone returns one result. -/
theorem C9_fetch_failure_discards_counterexample :
    process_emails (fun _ => none) (fun _ => [])
        (fun i => if i = 1 then Except.ok ⟨"s", "b", "exp", "d"⟩ else Except.error "boom")
        (fun _ => Except.ok ()) [1, 2] = [] ∧
    process_emails (fun _ => none) (fun _ => [])
        (fun i => if i = 1 then Except.ok ⟨"s", "b", "exp", "d"⟩ else Except.error "boom")
        (fun _ => Except.ok ()) [1] ≠ [] := by
  refine ⟨by decide, by decide⟩

/-- C9 amended: a mark-processed failure is isolated — it is swallowed
inside `mark_as_processed` and the results never depend on the mark
collaborator — but a fetch failure on one message is not: it aborts the
run, the remaining messages are not processed, and earlier results are
discarded (`process_emails` returns the empty list). -/
theorem C9_mark_isolated_but_fetch_aborts :
    (∀ (dateParse : String → Option PyDate)
        (recognize : String → List (String × String))
        (fetch : Nat → Except String ParsedEmail)
        (move move' : Nat → Except String Unit) (emails : List Nat),
        process_emails dateParse recognize fetch move emails =
          process_emails dateParse recognize fetch move' emails) ∧
    (∀ (dateParse : String → Option PyDate)
        (recognize : String → List (String × String))
        (fetch : Nat → Except String ParsedEmail)
        (move : Nat → Except String Unit)
        (pre : List Nat) (i : Nat) (post : List Nat) (msg : String),
        (∀ j ∈ pre, ∃ p, fetch j = Except.ok p) →
        fetch i = Except.error msg →
        process_emails dateParse recognize fetch move (pre ++ i :: post) = []) := by
  constructor
  · intro dp rec fetch move move' emails
    simp only [process_emails]
    rw [processLoop_move_irrel dp rec fetch move move' emails []]
  · intro dp rec fetch move pre i post msg hok hi
    simp only [process_emails]
    rw [processLoop_fetch_error dp rec fetch move i post msg hi pre [] hok]

/-- C9 witness: the fetch-abort clause at the concrete two-message run. -/
theorem C9_mark_isolated_but_fetch_aborts_witness :
    process_emails (fun _ => none) (fun _ => [])
        (fun i => if i = 1 then Except.ok ⟨"s", "b", "exp", "d"⟩ else Except.error "boom")
        (fun _ => Except.ok ()) ([1] ++ 2 :: []) = [] :=
  C9_mark_isolated_but_fetch_aborts.2 (fun _ => none) (fun _ => [])
    (fun i => if i = 1 then Except.ok ⟨"s", "b", "exp", "d"⟩ else Except.error "boom")
    (fun _ => Except.ok ()) [1] 2 [] "boom"
    (by intro j hj
        simp only [List.mem_singleton] at hj
        subst hj
        exact ⟨⟨"s", "b", "exp", "d"⟩, rfl⟩)
    rfl

/-- C10: every match of the `DD/DD/DDDD`-shaped regex fallback in the raw
text ends up verbatim in the extracted dates, with no validation at all;
concretely the out-of-window `15/03/2019` and the impossible `99/99/9999`
are both appended. -/
theorem C10_regex_dates_bypass_validation :
    (∀ (dateParse : String → Option PyDate) (text : String)
        (ents : List (String × String)) (s : String),
        s ∈ pyFindallDates none text.data →
        s ∈ (extract_requirements dateParse text ents).dates) ∧
    (extract_requirements (fun _ => none) "15/03/2019" []).dates = ["15/03/2019"] ∧
    (extract_requirements (fun _ => none) "99/99/9999" []).dates = ["99/99/9999"] := by
  refine ⟨?_, by decide, by decide⟩
  intro dp text ents s hs
  exact regexDatesFold_mem_right (pyFindallDates none text.data)
    (processEnts dp ents emptyRequirements).dates s hs

/-- C10 witness: a year-2019 regex match lands in the dates sequence. -/
theorem C10_regex_dates_bypass_validation_witness :
    "15/03/2019" ∈ (extract_requirements (fun _ => none) "le 15/03/2019" []).dates :=
  C10_regex_dates_bypass_validation.1 (fun _ => none) "le 15/03/2019" []
    "15/03/2019" (by decide)

end Emails
